import Mathlib

/-
  Verification development for the chesseval review pipeline
  (src/game_reviewer.py, src/main.py, src/utils.py).

  The embedding models, straight from the source:
  - the score types of the engine library (Cp, Mate, MateGiven, PovScore)
    with their negation, pov projection and mate_score conversion;
  - sanitize_povscore (utils.py and main.py, identical bodies);
  - the two review walkers:
      GameReviewer.create_review (game_reviewer.py), with its lru_cache
      over an async function, mate_score 2000, and comment set only when
      the node has NAGs;
      GameManager.create_review (main.py), no cache, mate_score 10000,
      comment set unconditionally on every node;
  - the FEN derivation used as the cache key (board.fen()), including
    halfmove clock and fullmove number.
-/

namespace Chesseval

/-- Side to move, python-chess chess.WHITE and chess.BLACK. -/
inductive Color where
  | white
  | black
deriving DecidableEq, Repr

/-- Logical negation of a python-chess color, the expression
not board.turn in both walkers. -/
def Color.flip : Color → Color
  | .white => .black
  | .black => .white

/-- chess.engine scores: Cp(v), Mate(n) and MateGiven. -/
inductive Score where
  | cp (v : Int)
  | mate (n : Int)
  | mateGiven
deriving DecidableEq, Repr

/-- Negation of a score, as implemented by python-chess:
the negation of Cp(v) is Cp(-v); the negation of Mate(0) is MateGiven,
of Mate(n) with n nonzero is Mate(-n); the negation of MateGiven is
Mate(0). -/
def Score.neg : Score → Score
  | .cp v => .cp (-v)
  | .mate n => if n = 0 then .mateGiven else .mate (-n)
  | .mateGiven => .mate 0

/-- The mate() accessor: None for Cp, the move count for Mate,
0 for MateGiven. -/
def Score.mateVal : Score → Option Int
  | .cp _ => none
  | .mate n => some n
  | .mateGiven => some 0

/-- The score(mate_score=m) conversion of python-chess: Cp(v) gives v,
Mate(n) gives m - n when n is positive and -m - n otherwise,
MateGiven gives m. -/
def Score.score (s : Score) (m : Int) : Int :=
  match s with
  | .cp v => v
  | .mate n => if 0 < n then m - n else -m - n
  | .mateGiven => m

/-- A score together with the color whose point of view it is
expressed from (python-chess PovScore(relative, turn)). -/
structure PovScore where
  relative : Score
  turn : Color
deriving DecidableEq, Repr

/-- PovScore.pov(color): the relative score when color matches the
stored turn, its negation otherwise. -/
def PovScore.pov (ps : PovScore) (c : Color) : Score :=
  if ps.turn = c then ps.relative else ps.relative.neg

/-- PovScore.white(), i.e. pov(chess.WHITE). -/
def PovScore.white (ps : PovScore) : Score := ps.pov .white

/-- The Python format expression on the centipawn branch of
sanitize_povscore: v/100 rendered with a mandatory sign and two decimal
places. For integer centipawn inputs of the magnitudes the engine
produces, the float division and rounding of the Python expression are
exact, so the integer rendering below coincides with it. -/
def fmtPlus2dp (v : Int) : String :=
  let sign := if v < 0 then "-" else "+"
  let a := v.natAbs
  sign ++ toString (a / 100) ++ "." ++
    (if a % 100 < 10 then "0" else "") ++ toString (a % 100)

/-- sanitize_povscore from utils.py (the copy in main.py is identical):
when mate() is not None the result is the letter M followed by the
signed mate count; otherwise the centipawn value is rendered signed
with two decimals. MateGiven has mate() equal to 0, hence also renders
as M0. -/
def sanitize_povscore : Score → String
  | .cp v => fmtPlus2dp v
  | .mate n => "M" ++ toString n
  | .mateGiven => "M" ++ toString (0 : Int)

/-- chess.pgn.NAG_MISTAKE. -/
def NAG_MISTAKE : Nat := 2
/-- chess.pgn.NAG_BLUNDER. -/
def NAG_BLUNDER : Nat := 4
/-- chess.pgn.NAG_DUBIOUS_MOVE. -/
def NAG_DUBIOUS_MOVE : Nat := 6

/-- Adding an element to a Python set of NAGs, modelled on lists
without duplication. -/
def nagAdd (nags : List Nat) (n : Nat) : List Nat :=
  if n ∈ nags then nags else nags ++ [n]

/-- The severity classification shared verbatim by both walkers:
node.nags.add(NAG_BLUNDER) when the deficit is at least 500, else
NAG_MISTAKE at 300, else NAG_DUBIOUS_MOVE at 100, else no change. -/
def addSeverityNag (nags : List Nat) (deficit : Int) : List Nat :=
  if 500 ≤ deficit then nagAdd nags NAG_BLUNDER
  else if 300 ≤ deficit then nagAdd nags NAG_MISTAKE
  else if 100 ≤ deficit then nagAdd nags NAG_DUBIOUS_MOVE
  else nags

/-- Data carried by one chess.pgn.GameNode: the FEN of the position
after the move of the node (node.board().fen(), a pure function of the path
from the root, delegated to python-chess), the side to move in that
position, the comment string and the NAG set. -/
structure PosInfo where
  fen : String
  turn : Color
  comment : String
  nags : List Nat
deriving DecidableEq, Repr

mutual
/-- A chess.pgn game tree: a node with its data and its ordered list
of variations. -/
inductive GTree where
  | node (info : PosInfo) (children : GForest)
deriving DecidableEq

/-- The ordered variations of a node. -/
inductive GForest where
  | nil
  | cons (t : GTree) (ts : GForest)
deriving DecidableEq
end

/-- Engine failures of a single analyse call (EngineTimeout or a
protocol error). -/
inductive EngErr where
  | timeout
  | protocolFailure
deriving DecidableEq, Repr

/-- Errors that abort a review run: an engine failure, or the
RuntimeError raised when awaiting an already awaited coroutine that
functools.lru_cache handed back for a repeated key. -/
inductive RunErr where
  | engine (e : EngErr)
  | reusedCoroutine
deriving DecidableEq, Repr

/-- Observable engine session events: one analyse call (with the fen it
was given), and engine.quit(). -/
inductive EngEvent where
  | analyse (fen : String)
  | quit
deriving DecidableEq, Repr

/-- Number of quit events in a trace. -/
def quitCount : List EngEvent → Nat
  | [] => 0
  | .quit :: r => quitCount r + 1
  | .analyse _ :: r => quitCount r

/-- A deterministic model of engine.analyse: the PovScore it reports
for a fen, or a failure. -/
def EngOracle := String → Except EngErr PovScore

/-- An oracle built from a total score assignment; it never fails. -/
def okOracle (ov : String → PovScore) : EngOracle :=
  fun f => .ok (ov f)

/-- State threaded through GameReviewer.create_review: the keys for
which the lru_cache already holds a coroutine, and the engine events
issued so far. -/
structure GRState where
  cachedFens : List String
  trace : List EngEvent
deriving DecidableEq, Repr

/-- Exception propagation of the Python walkers: a failed step aborts
the enclosing call with the state reached so far, a successful step
feeds its value and state to the continuation. -/
def andThen {σ α β : Type} (x : Except RunErr α × σ)
    (f : α → σ → Except RunErr β × σ) : Except RunErr β × σ :=
  match x with
  | (.error e, s) => (.error e, s)
  | (.ok a, s) => f a s

@[simp]
theorem andThen_error {σ α β : Type} (e : RunErr) (s : σ)
    (f : α → σ → Except RunErr β × σ) :
    andThen (.error e, s) f = (.error e, s) := rfl

@[simp]
theorem andThen_ok {σ α β : Type} (a : α) (s : σ)
    (f : α → σ → Except RunErr β × σ) :
    andThen (.ok a, s) f = f a s := rfl

/-- The lru_cache-decorated _eval_fen of game_reviewer.py. The first
call for a key creates the coroutine, caches it and awaits it (one
engine.analyse). Any later call for the same key gets the cached,
already awaited coroutine back, and awaiting it raises RuntimeError:
the cache can never serve a value. -/
def evalFenGR (oracle : EngOracle) (fen : String) (s : GRState) :
    Except RunErr PovScore × GRState :=
  if fen ∈ s.cachedFens then (.error .reusedCoroutine, s)
  else
    match oracle fen with
    | .error e =>
        (.error (.engine e),
         ⟨fen :: s.cachedFens, s.trace ++ [.analyse fen]⟩)
    | .ok sc =>
        (.ok sc, ⟨fen :: s.cachedFens, s.trace ++ [.analyse fen]⟩)

/-- The mate_score constant of game_reviewer.py (20_00, the comment
there reads: checkmate is worth 20 pawns). -/
def mateScoreGR : Int := 2000

/-- The mate_score constant of main.py (10000, the comment there
reads: checkmate is worth 10000 pawns). -/
def mateScoreGM : Int := 10000

mutual
/-- The _eval_inner of GameReviewer.create_review (game_reviewer.py):
evaluate the fen of the node through the cached _eval_fen; when a previous
score exists, classify the move just played using both scores taken
from the point of view of the side that just moved (not board.turn)
converted with mate_score 2000; set the comment to the formatted white
score when the node has any NAGs; then recurse into the variations
(sequentialised left to right; asyncio.gather changes interleaving but
not the scores, annotations or per-key call counts of a run under a
deterministic engine). -/
def evalInnerGR (oracle : EngOracle) (prev : Option PovScore) :
    GTree → GRState → Except RunErr GTree × GRState
  | .node info cs, s =>
    andThen (evalFenGR oracle info.fen s) fun score s1 =>
      let nags1 :=
        match prev with
        | none => info.nags
        | some p =>
          let mover := info.turn.flip
          let prevNum := (p.pov mover).score mateScoreGR
          let curNum := (score.pov mover).score mateScoreGR
          addSeverityNag info.nags (prevNum - curNum)
      let comment1 :=
        if nags1 = [] then info.comment
        else sanitize_povscore score.white
      andThen (evalForestGR oracle score cs s1) fun cs1 s2 =>
        (.ok (.node { info with nags := nags1, comment := comment1 } cs1),
         s2)

/-- Recursion of _eval_inner over the variations of a node. -/
def evalForestGR (oracle : EngOracle) (score : PovScore) :
    GForest → GRState → Except RunErr GForest × GRState
  | .nil, s => (.ok .nil, s)
  | .cons t ts, s =>
    andThen (evalInnerGR oracle (some score) t s) fun t1 s1 =>
      andThen (evalForestGR oracle score ts s1) fun ts1 s2 =>
        (.ok (.cons t1 ts1), s2)
end

/-- GameReviewer.create_review: open the engine, walk the tree inside
a try block, and in the finally clause always quit the engine, whether
the walk returned or raised. -/
def createReviewGR (oracle : EngOracle) (t : GTree) :
    Except RunErr GTree × List EngEvent :=
  match evalInnerGR oracle none t ⟨[], []⟩ with
  | (r, s) => (r, s.trace ++ [.quit])

/-- One direct engine.analyse call of main.py: records the analyse
event and returns the reported score, or raises the engine failure. -/
def analyseGM (oracle : EngOracle) (fen : String) (tr : List EngEvent) :
    Except RunErr PovScore × List EngEvent :=
  match oracle fen with
  | .error e => (.error (.engine e), tr ++ [.analyse fen])
  | .ok sc => (.ok sc, tr ++ [.analyse fen])

mutual
/-- The _eval_inner of GameManager.create_review (main.py): analyse
the fen of the node directly (no cache), set the comment unconditionally to
the formatted white score, then classify with mate_score 10000 when a
previous score exists, then recurse into the variations. -/
def evalInnerGM (oracle : EngOracle) (prev : Option PovScore) :
    GTree → List EngEvent → Except RunErr GTree × List EngEvent
  | .node info cs, tr =>
    andThen (analyseGM oracle info.fen tr) fun score tr1 =>
      let comment1 := sanitize_povscore score.white
      let nags1 :=
        match prev with
        | none => info.nags
        | some p =>
          let mover := info.turn.flip
          let prevNum := (p.pov mover).score mateScoreGM
          let curNum := (score.pov mover).score mateScoreGM
          addSeverityNag info.nags (prevNum - curNum)
      andThen (evalForestGM oracle score cs tr1) fun cs1 tr2 =>
        (.ok (.node { info with nags := nags1, comment := comment1 } cs1),
         tr2)

/-- Recursion of the main.py _eval_inner over the variations. -/
def evalForestGM (oracle : EngOracle) (score : PovScore) :
    GForest → List EngEvent → Except RunErr GForest × List EngEvent
  | .nil, tr => (.ok .nil, tr)
  | .cons t ts, tr =>
    andThen (evalInnerGM oracle (some score) t tr) fun t1 tr1 =>
      andThen (evalForestGM oracle score ts tr1) fun ts1 tr2 =>
        (.ok (.cons t1 ts1), tr2)
end

/-- GameManager.create_review of main.py: walk inside try, quit the
engine in the finally clause on every exit path. -/
def createReviewGM (oracle : EngOracle) (t : GTree) :
    Except RunErr GTree × List EngEvent :=
  match evalInnerGM oracle none t [] with
  | (r, tr) => (r, tr ++ [.quit])

/-- The new NAG set of a node, per the annotation rule of the spec
(section 4.4) as game_reviewer.py implements it: for a non-root node
the deficit is the previous score minus the current score, both taken
from the point of view of the side that just moved (the inverse of the
side to move in the position of the node) after the mate_score 2000
conversion. -/
def specNagsGR (ov : String → PovScore) (prev : Option PovScore)
    (info : PosInfo) : List Nat :=
  match prev with
  | none => info.nags
  | some p =>
    addSeverityNag info.nags
      ((p.pov info.turn.flip).score mateScoreGR -
       ((ov info.fen).pov info.turn.flip).score mateScoreGR)

/-- Closed-form node transform of a successful GameReviewer run: the
NAGs from specNagsGR, and the white-pov formatted score as comment
exactly when the node ends up with NAGs. -/
def specInfoGR (ov : String → PovScore) (prev : Option PovScore)
    (info : PosInfo) : PosInfo :=
  { info with
    nags := specNagsGR ov prev info,
    comment :=
      if specNagsGR ov prev info = [] then info.comment
      else sanitize_povscore (ov info.fen).white }

mutual
/-- Closed-form per-node description of a successful GameReviewer run,
following the walk of the spec (section 4.3): each node is transformed
by specInfoGR, and its children receive the oracle score of the node as
their previous score. -/
def specMapGR (ov : String → PovScore) : Option PovScore → GTree → GTree
  | prev, .node info cs =>
    .node (specInfoGR ov prev info) (specForestGR ov (ov info.fen) cs)

/-- Pointwise extension of specMapGR to the variations of a node. -/
def specForestGR (ov : String → PovScore) (score : PovScore) :
    GForest → GForest
  | .nil => .nil
  | .cons t ts => .cons (specMapGR ov (some score) t) (specForestGR ov score ts)
end

/-- The node data of the root of a tree. -/
def GTree.info : GTree → PosInfo
  | .node i _ => i

/-- Child access among the variations of a node. -/
def forestGet : GForest → Nat → Option GTree
  | .nil, _ => none
  | .cons t _, 0 => some t
  | .cons _ ts, k + 1 => forestGet ts k

/-- Node access along a path of variation indices. -/
def getPath : GTree → List Nat → Option GTree
  | t, [] => some t
  | .node _ cs, k :: p =>
    match forestGet cs k with
    | some c => getPath c p
    | none => none

mutual
/-- Decides that no node of the tree carries any NAG. -/
def noNags : GTree → Bool
  | .node i cs => i.nags.isEmpty && noNagsF cs
def noNagsF : GForest → Bool
  | .nil => true
  | .cons t ts => noNags t && noNagsF ts
end

mutual
/-- Decides that under the oracle every non-root deficit of the tree,
computed exactly as game_reviewer.py computes it, is below the given
bound. -/
def deficitsLtGR (ov : String → PovScore) (bound : Int) :
    Option PovScore → GTree → Bool
  | prev, .node i cs =>
    (match prev with
     | none => true
     | some p =>
       decide ((p.pov i.turn.flip).score mateScoreGR -
         ((ov i.fen).pov i.turn.flip).score mateScoreGR < bound)) &&
    deficitsLtGRF ov bound (ov i.fen) cs
def deficitsLtGRF (ov : String → PovScore) (bound : Int) (score : PovScore) :
    GForest → Bool
  | .nil => true
  | .cons t ts =>
    deficitsLtGR ov bound (some score) t && deficitsLtGRF ov bound score ts
end

mutual
/-- Decides that under the oracle every non-root deficit of the tree,
computed exactly as main.py computes it (mate_score 10000), is below
the given bound. -/
def deficitsLtGM (ov : String → PovScore) (bound : Int) :
    Option PovScore → GTree → Bool
  | prev, .node i cs =>
    (match prev with
     | none => true
     | some p =>
       decide ((p.pov i.turn.flip).score mateScoreGM -
         ((ov i.fen).pov i.turn.flip).score mateScoreGM < bound)) &&
    deficitsLtGMF ov bound (ov i.fen) cs
def deficitsLtGMF (ov : String → PovScore) (bound : Int) (score : PovScore) :
    GForest → Bool
  | .nil => true
  | .cons t ts =>
    deficitsLtGM ov bound (some score) t && deficitsLtGMF ov bound score ts
end

/-- Modelled from the spec: the claimed rendering of a mate score in a
comment, a plus-or-minus sign, then the letter M, then the unsigned
mate distance. -/
def specMateFmt (n : Int) : String :=
  (if 0 ≤ n then "+" else "-") ++ "M" ++ toString n.natAbs

/-- FEN of the standard starting position. -/
def fenStart : String :=
  "rnbqkbnr/pppppppp/8/8/8/8/PPPPPPPP/RNBQKBNR w KQkq - 0 1"
/-- FEN after 1. e4. -/
def fenE4 : String :=
  "rnbqkbnr/pppppppp/8/8/4P3/8/PPPPPPPP/RNBQKBNR b KQkq - 0 1"
/-- FEN after 1. e4 d5. -/
def fenE4d5 : String :=
  "rnbqkbnr/ppp1pppp/8/3p4/4P3/8/PPPPPPPP/RNBQKBNR w KQkq - 0 2"
/-- FEN after 1. d4. -/
def fenD4 : String :=
  "rnbqkbnr/pppppppp/8/8/3P4/8/PPPPPPPP/RNBQKBNR b KQkq - 0 1"
/-- FEN after 1. d4 d5. -/
def fenD4d5 : String :=
  "rnbqkbnr/ppp1pppp/8/3p4/3P4/8/PPPPPPPP/RNBQKBNR w KQkq - 0 2"
/-- FEN after both 1. e4 d5 2. d4 and 1. d4 d5 2. e4, a transposition
reached with equal halfmove clock and fullmove number, hence one cache
key. -/
def fenTrans : String :=
  "rnbqkbnr/ppp1pppp/8/3p4/3PP3/8/PPPPPPPP/RNBQKBNR b KQkq - 0 2"

/-- An oracle reporting an even position everywhere, from the side to
move of each position used in the concrete trees below. -/
def ovEven : String → PovScore := fun f =>
  if f = fenStart ∨ f = fenE4d5 ∨ f = fenD4d5 then ⟨.cp 0, .white⟩
  else ⟨.cp 0, .black⟩

/-- An oracle under which the first move is a blunder: the position
after it is worth 600 centipawns to the side to move (black), hence
minus 600 for the mover. -/
def ovBlunder : String → PovScore := fun f =>
  if f = fenStart then ⟨.cp 0, .white⟩ else ⟨.cp 600, .black⟩

/-- An oracle under which the first move loses only 50 centipawns for
the mover, below every severity threshold. -/
def ovFifty : String → PovScore := fun f =>
  if f = fenStart then ⟨.cp 0, .white⟩ else ⟨.cp 50, .black⟩

/-- A two-node mainline, 1. e4, with no comments and no NAGs. -/
def tClean : GTree :=
  .node ⟨fenStart, .white, "", []⟩
    (.cons (.node ⟨fenE4, .black, "", []⟩ .nil) .nil)

/-- The same two-node mainline, with a pre-existing NAG (a good-move
mark carried in from the input PGN) on the move node. -/
def tMarked : GTree :=
  .node ⟨fenStart, .white, "", []⟩
    (.cons (.node ⟨fenE4, .black, "", [1]⟩ .nil) .nil)

/-- A game whose two first-move variations transpose: 1. e4 d5 2. d4
against 1. d4 d5 2. e4. The two leaves share the position key
fenTrans. -/
def tTrans : GTree :=
  .node ⟨fenStart, .white, "", []⟩
    (.cons
      (.node ⟨fenE4, .black, "", []⟩
        (.cons (.node ⟨fenE4d5, .white, "", []⟩
          (.cons (.node ⟨fenTrans, .black, "", []⟩ .nil) .nil)) .nil))
      (.cons
        (.node ⟨fenD4, .black, "", []⟩
          (.cons (.node ⟨fenD4d5, .white, "", []⟩
            (.cons (.node ⟨fenTrans, .black, "", []⟩ .nil) .nil)) .nil))
        .nil))

/-- A chess piece with its color, as rendered in FEN. -/
inductive Piece where
  | wP | wN | wB | wR | wQ | wK
  | bP | bN | bB | bR | bQ | bK
deriving DecidableEq, Repr

/-- The FEN letter of a piece. -/
def Piece.fenChar : Piece → Char
  | .wP => 'P' | .wN => 'N' | .wB => 'B' | .wR => 'R' | .wQ => 'Q' | .wK => 'K'
  | .bP => 'p' | .bN => 'n' | .bB => 'b' | .bR => 'r' | .bQ => 'q' | .bK => 'k'

/-- Whether a piece is a pawn (of either color). -/
def Piece.isPawn : Piece → Bool
  | .wP | .bP => true
  | _ => false

/-- Piece placement, eight ranks in FEN order (rank 8 first), each a
list of eight files from a to h. -/
abbrev Placement := List (List (Option Piece))

/-- Castling rights, one flag per side and wing. -/
structure CastlingRights where
  wK : Bool
  wQ : Bool
  bK : Bool
  bQ : Bool
deriving DecidableEq, Repr

/-- The board state python-chess exposes: placement, side to move,
castling rights, en-passant target square, halfmove clock and
fullmove number. Squares are (rank index in FEN order, file index). -/
structure Board where
  placement : Placement
  turn : Color
  castling : CastlingRights
  epSquare : Option (Nat × Nat)
  halfmoveClock : Nat
  fullmoveNumber : Nat
deriving DecidableEq, Repr

/-- Run-length FEN encoding of one rank. -/
def rankFen (r : List (Option Piece)) : String :=
  let fin := r.foldl
    (fun (acc : String × Nat) sq =>
      match sq with
      | none => (acc.1, acc.2 + 1)
      | some pc =>
        (acc.1 ++ (if acc.2 = 0 then "" else toString acc.2) ++
          String.singleton pc.fenChar, 0))
    ("", 0)
  fin.1 ++ (if fin.2 = 0 then "" else toString fin.2)

/-- FEN encoding of the full placement. -/
def placementFen (p : Placement) : String :=
  String.intercalate "/" (p.map rankFen)

/-- The side-to-move field of a FEN. -/
def colorFen : Color → String
  | .white => "w"
  | .black => "b"

/-- The castling field of a FEN. -/
def castlingFen (c : CastlingRights) : String :=
  let s := (if c.wK then "K" else "") ++ (if c.wQ then "Q" else "") ++
    (if c.bK then "k" else "") ++ (if c.bQ then "q" else "")
  if s = "" then "-" else s

/-- Algebraic name of a square given as (FEN rank index, file index). -/
def squareName (sq : Nat × Nat) : String :=
  String.singleton (Char.ofNat (97 + sq.2)) ++ toString (8 - sq.1)

/-- The en-passant field of a FEN. python-chess by default prints the
square only when an en-passant capture is fully legal; this rendering
prints any stored square, and every board appearing in the theorems
below carries none, where the two agree. -/
def epFen : Option (Nat × Nat) → String
  | none => "-"
  | some sq => squareName sq

/-- board.fen() of python-chess: placement, side to move, castling
rights and en-passant target, followed by the halfmove clock and the
fullmove number. This full string is what _eval_fen of
game_reviewer.py uses as its cache key. -/
def Board.fen (b : Board) : String :=
  placementFen b.placement ++ " " ++ colorFen b.turn ++ " " ++
    castlingFen b.castling ++ " " ++ epFen b.epSquare ++ " " ++
    toString b.halfmoveClock ++ " " ++ toString b.fullmoveNumber

/-- The notion of equal board positions in the spec: same piece placement,
side to move, castling rights and en-passant target; move counters
excluded. -/
def samePosition (a b : Board) : Prop :=
  a.placement = b.placement ∧ a.turn = b.turn ∧
    a.castling = b.castling ∧ a.epSquare = b.epSquare

instance (a b : Board) : Decidable (samePosition a b) := by
  unfold samePosition
  infer_instance

/-- The piece on a square. -/
def getSq (p : Placement) (rk fl : Nat) : Option Piece :=
  match p.get? rk with
  | some r => (r.get? fl).join
  | none => none

/-- Replacing the content of a square. -/
def setSq (p : Placement) (rk fl : Nat) (v : Option Piece) : Placement :=
  match p.get? rk with
  | some r => p.set rk (r.set fl v)
  | none => p

/-- A move given by source and destination squares. The fragment
modelled here covers ordinary piece moves, captures and pawn pushes,
which python-chess board.push handles by relocating the piece and
updating turn, counters, castling rights and the en-passant square;
castling moves, promotions and en-passant captures do not occur in the
move sequences used below. -/
structure Move where
  fromSq : Nat × Nat
  toSq : Nat × Nat
deriving DecidableEq, Repr

/-- board.push for the modelled fragment: relocate the piece; flip the
turn; zero the halfmove clock on a pawn move or a capture, else
increment it; bump the fullmove number after a black move; drop a
castling right when its king or rook square is touched; set the
en-passant square behind a double pawn push, clear it otherwise. -/
def applyMove (b : Board) (m : Move) : Board :=
  let piece := getSq b.placement m.fromSq.1 m.fromSq.2
  let target := getSq b.placement m.toSq.1 m.toSq.2
  let p1 := setSq (setSq b.placement m.fromSq.1 m.fromSq.2 none)
    m.toSq.1 m.toSq.2 piece
  let isPawnMove : Bool := match piece with
    | some pc => pc.isPawn
    | none => false
  let isCapture : Bool := target.isSome
  let touched : Nat × Nat → Bool := fun c =>
    decide (m.fromSq = c) || decide (m.toSq = c)
  { placement := p1
    turn := b.turn.flip
    castling :=
      { wK := b.castling.wK && !(touched (7, 4)) && !(touched (7, 7))
        wQ := b.castling.wQ && !(touched (7, 4)) && !(touched (7, 0))
        bK := b.castling.bK && !(touched (0, 4)) && !(touched (0, 7))
        bQ := b.castling.bQ && !(touched (0, 4)) && !(touched (0, 0)) }
    epSquare :=
      if isPawnMove &&
        ((m.fromSq.1 == 6) && (m.toSq.1 == 4) ||
         (m.fromSq.1 == 1) && (m.toSq.1 == 3))
      then some ((m.fromSq.1 + m.toSq.1) / 2, m.fromSq.2)
      else none
    halfmoveClock := if isPawnMove || isCapture then 0
      else b.halfmoveClock + 1
    fullmoveNumber := if b.turn = .black then b.fullmoveNumber + 1
      else b.fullmoveNumber }

/-- Successive application of a move sequence. -/
def applyMoves (b : Board) (ms : List Move) : Board :=
  ms.foldl applyMove b

/-- The standard starting position. -/
def startBoard : Board :=
  { placement :=
      [[some .bR, some .bN, some .bB, some .bQ,
        some .bK, some .bB, some .bN, some .bR],
       List.replicate 8 (some Piece.bP),
       List.replicate 8 none,
       List.replicate 8 none,
       List.replicate 8 none,
       List.replicate 8 none,
       List.replicate 8 (some Piece.wP),
       [some .wR, some .wN, some .wB, some .wQ,
        some .wK, some .wB, some .wN, some .wR]]
    turn := .white
    castling := ⟨true, true, true, true⟩
    epSquare := none
    halfmoveClock := 0
    fullmoveNumber := 1 }

/-- The sequence Ng1f3, Ng8f6, Nf3g1, Nf6g8, returning to the starting
placement after four halfmoves. -/
def knightDance : List Move :=
  [⟨(7, 6), (5, 5)⟩, ⟨(0, 6), (2, 5)⟩, ⟨(5, 5), (7, 6)⟩, ⟨(2, 5), (0, 6)⟩]

/-- Ng1f3, Nb8c6, Nb1c3, Ng8f6. -/
def knightsSeqA : List Move :=
  [⟨(7, 6), (5, 5)⟩, ⟨(0, 1), (2, 2)⟩, ⟨(7, 1), (5, 2)⟩, ⟨(0, 6), (2, 5)⟩]

/-- Nb1c3, Ng8f6, Ng1f3, Nb8c6: a transposition of knightsSeqA with
the same length and the same halfmove clock. -/
def knightsSeqB : List Move :=
  [⟨(7, 1), (5, 2)⟩, ⟨(0, 6), (2, 5)⟩, ⟨(7, 6), (5, 5)⟩, ⟨(0, 1), (2, 2)⟩]

theorem quitCount_append (a b : List EngEvent) :
    quitCount (a ++ b) = quitCount a + quitCount b := by
  induction a with
  | nil => simp [quitCount]
  | cons e r ih =>
    cases e with
    | analyse f => simp [quitCount, ih]
    | quit =>
      show quitCount (r ++ b) + 1 = quitCount r + 1 + quitCount b
      rw [ih]
      omega

theorem evalFenGR_trace_quitCount (oracle : EngOracle) (fen : String)
    (s : GRState) :
    quitCount (evalFenGR oracle fen s).2.trace = quitCount s.trace := by
  unfold evalFenGR
  split
  · rfl
  · split <;> simp [quitCount_append, quitCount]

mutual
theorem evalInnerGR_trace_quitCount (oracle : EngOracle) :
    ∀ (prev : Option PovScore) (t : GTree) (s : GRState),
      quitCount (evalInnerGR oracle prev t s).2.trace = quitCount s.trace
  | prev, .node info cs, s => by
    have hf := evalFenGR_trace_quitCount oracle info.fen s
    rw [evalInnerGR]
    rcases hfe : evalFenGR oracle info.fen s with ⟨r, s1⟩
    rw [hfe] at hf
    cases r with
    | error e => simpa using hf
    | ok score =>
      have hg := evalForestGR_trace_quitCount oracle score cs s1
      rcases hge : evalForestGR oracle score cs s1 with ⟨r2, s2⟩
      rw [hge] at hg
      simp only [andThen_ok]
      rw [hge]
      cases r2 <;> simp_all

theorem evalForestGR_trace_quitCount (oracle : EngOracle) :
    ∀ (score : PovScore) (cs : GForest) (s : GRState),
      quitCount (evalForestGR oracle score cs s).2.trace = quitCount s.trace
  | _, .nil, _ => rfl
  | score, .cons t ts, s => by
    have h1 := evalInnerGR_trace_quitCount oracle (some score) t s
    rw [evalForestGR]
    rcases he : evalInnerGR oracle (some score) t s with ⟨r, s1⟩
    rw [he] at h1
    cases r with
    | error e => simpa using h1
    | ok t1 =>
      have h2 := evalForestGR_trace_quitCount oracle score ts s1
      rcases hg : evalForestGR oracle score ts s1 with ⟨r2, s2⟩
      rw [hg] at h2
      simp only [andThen_ok]
      rw [hg]
      cases r2 <;> simp_all
end

theorem evalFenGR_okOracle (ov : String → PovScore) (fen : String)
    (s : GRState) (sc : PovScore) (s1 : GRState)
    (h : evalFenGR (okOracle ov) fen s = (.ok sc, s1)) : sc = ov fen := by
  unfold evalFenGR okOracle at h
  split at h
  · simp at h
  · simp only [Prod.mk.injEq, Except.ok.injEq] at h
    exact h.1.symm

mutual
theorem evalInnerGR_ok_spec (ov : String → PovScore) :
    ∀ (prev : Option PovScore) (t : GTree) (s : GRState) (t1 : GTree)
      (s1 : GRState),
      evalInnerGR (okOracle ov) prev t s = (.ok t1, s1) →
      t1 = specMapGR ov prev t
  | prev, .node info cs, s, t1, s1, h => by
    rw [evalInnerGR] at h
    rcases hfe : evalFenGR (okOracle ov) info.fen s with ⟨r, sA⟩
    rw [hfe] at h
    cases r with
    | error e => simp at h
    | ok sc =>
      have hsc := evalFenGR_okOracle ov info.fen s sc sA hfe
      subst hsc
      simp only [andThen_ok] at h
      rcases hge : evalForestGR (okOracle ov) (ov info.fen) cs sA with ⟨r2, sB⟩
      rw [hge] at h
      cases r2 with
      | error e => simp at h
      | ok cs1 =>
        have hcs := evalForestGR_ok_spec ov (ov info.fen) cs sA cs1 sB hge
        simp only [andThen_ok, Prod.mk.injEq, Except.ok.injEq] at h
        rw [← h.1, hcs]
        rfl

theorem evalForestGR_ok_spec (ov : String → PovScore) :
    ∀ (score : PovScore) (cs : GForest) (s : GRState) (cs1 : GForest)
      (s1 : GRState),
      evalForestGR (okOracle ov) score cs s = (.ok cs1, s1) →
      cs1 = specForestGR ov score cs
  | score, .nil, s, cs1, s1, h => by
    simp only [evalForestGR, Prod.mk.injEq, Except.ok.injEq] at h
    rw [← h.1]
    rfl
  | score, .cons t ts, s, cs1, s1, h => by
    rw [evalForestGR] at h
    rcases he : evalInnerGR (okOracle ov) (some score) t s with ⟨r, sA⟩
    rw [he] at h
    cases r with
    | error e => simp at h
    | ok tA =>
      simp only [andThen_ok] at h
      rcases hg : evalForestGR (okOracle ov) score ts sA with ⟨r2, sB⟩
      rw [hg] at h
      cases r2 with
      | error e => simp at h
      | ok tsA =>
        have h1 := evalInnerGR_ok_spec ov (some score) t s tA sA he
        have h2 := evalForestGR_ok_spec ov score ts sA tsA sB hg
        simp only [andThen_ok, Prod.mk.injEq, Except.ok.injEq] at h
        rw [← h.1, h1, h2]
        rfl
end

theorem analyseGM_trace_quitCount (oracle : EngOracle) (fen : String)
    (tr : List EngEvent) :
    quitCount (analyseGM oracle fen tr).2 = quitCount tr := by
  unfold analyseGM
  split <;> simp [quitCount_append, quitCount]

mutual
theorem evalInnerGM_trace_quitCount (oracle : EngOracle) :
    ∀ (prev : Option PovScore) (t : GTree) (tr : List EngEvent),
      quitCount (evalInnerGM oracle prev t tr).2 = quitCount tr
  | prev, .node info cs, tr => by
    have hf := analyseGM_trace_quitCount oracle info.fen tr
    rw [evalInnerGM]
    rcases hfe : analyseGM oracle info.fen tr with ⟨r, tr1⟩
    rw [hfe] at hf
    cases r with
    | error e => simpa using hf
    | ok score =>
      have hg := evalForestGM_trace_quitCount oracle score cs tr1
      rcases hge : evalForestGM oracle score cs tr1 with ⟨r2, tr2⟩
      rw [hge] at hg
      simp only [andThen_ok]
      rw [hge]
      cases r2 <;> simp_all

theorem evalForestGM_trace_quitCount (oracle : EngOracle) :
    ∀ (score : PovScore) (cs : GForest) (tr : List EngEvent),
      quitCount (evalForestGM oracle score cs tr).2 = quitCount tr
  | _, .nil, _ => rfl
  | score, .cons t ts, tr => by
    have h1 := evalInnerGM_trace_quitCount oracle (some score) t tr
    rw [evalForestGM]
    rcases he : evalInnerGM oracle (some score) t tr with ⟨r, tr1⟩
    rw [he] at h1
    cases r with
    | error e => simpa using h1
    | ok t1 =>
      have h2 := evalForestGM_trace_quitCount oracle score ts tr1
      rcases hg : evalForestGM oracle score ts tr1 with ⟨r2, tr2⟩
      rw [hg] at h2
      simp only [andThen_ok]
      rw [hg]
      cases r2 <;> simp_all
end

/-- Claim C1: the severity tag assigned from a pair of
perspective-adjusted scores is determined by the deficit exactly per
the threshold table (each band characterised by an iff), including the
boundary deficits 99, 100, 299, 300, 499 and 500. -/
theorem c1_severity_thresholds :
    (∀ prevNum curNum : Int,
      (addSeverityNag [] (prevNum - curNum) = [NAG_BLUNDER] ↔
        500 ≤ prevNum - curNum) ∧
      (addSeverityNag [] (prevNum - curNum) = [NAG_MISTAKE] ↔
        300 ≤ prevNum - curNum ∧ prevNum - curNum < 500) ∧
      (addSeverityNag [] (prevNum - curNum) = [NAG_DUBIOUS_MOVE] ↔
        100 ≤ prevNum - curNum ∧ prevNum - curNum < 300) ∧
      (addSeverityNag [] (prevNum - curNum) = [] ↔
        prevNum - curNum < 100)) ∧
    addSeverityNag [] 99 = [] ∧
    addSeverityNag [] 100 = [NAG_DUBIOUS_MOVE] ∧
    addSeverityNag [] 299 = [NAG_DUBIOUS_MOVE] ∧
    addSeverityNag [] 300 = [NAG_MISTAKE] ∧
    addSeverityNag [] 499 = [NAG_MISTAKE] ∧
    addSeverityNag [] 500 = [NAG_BLUNDER] := by
  refine ⟨fun prevNum curNum => ?_, by decide, by decide, by decide,
    by decide, by decide, by decide⟩
  unfold addSeverityNag nagAdd NAG_BLUNDER NAG_MISTAKE NAG_DUBIOUS_MOVE
  refine ⟨?_, ?_, ?_, ?_⟩ <;> (split_ifs <;> simp_all <;> omega)

/-- Claim C2: in both review pipelines, once the engine is open the
session records exactly one quit event, on every exit path, whether
the walk completes or aborts with an error under any engine oracle. -/
theorem c2_engine_quit_exactly_once (oracle : EngOracle) (t : GTree) :
    quitCount (createReviewGR oracle t).2 = 1 ∧
    quitCount (createReviewGM oracle t).2 = 1 := by
  constructor
  · unfold createReviewGR
    have h0 := evalInnerGR_trace_quitCount oracle none t ⟨[], []⟩
    rcases h : evalInnerGR oracle none t ⟨[], []⟩ with ⟨r, s⟩
    rw [h] at h0
    simp [quitCount_append, quitCount] at h0 ⊢
    exact h0
  · unfold createReviewGM
    have h0 := evalInnerGM_trace_quitCount oracle none t []
    rcases h : evalInnerGM oracle none t [] with ⟨r, tr⟩
    rw [h] at h0
    simp [quitCount_append, quitCount] at h0 ⊢
    exact h0

/-- Claim C7: both walkers convert mate evaluations with a fixed
mate_score constant (2000 in game_reviewer.py, 10000 in main.py), each
at least 2000 centipawns; and after an even position, a move that
allows the opponent a mate in k (for any feasible k up to 1500)
produces a deficit classified as a blunder under the game_reviewer
constant. -/
theorem c7_mate_conversion_dominates :
    mateScoreGR = 2000 ∧ mateScoreGM = 10000 ∧
    2000 ≤ mateScoreGR ∧ 2000 ≤ mateScoreGM ∧
    ∀ k : Int, 0 < k → k ≤ 1500 →
      addSeverityNag []
        (((PovScore.mk (.cp 0) .white).pov (Color.flip .black)).score
            mateScoreGR -
          ((PovScore.mk (.mate k) .black).pov (Color.flip .black)).score
            mateScoreGR) = [NAG_BLUNDER] := by
  refine ⟨rfl, rfl, by norm_num [mateScoreGR], by norm_num [mateScoreGM],
    fun k hk hk2 => ?_⟩
  have hkne : ¬(k = 0) := by omega
  have hnegk : ¬(0 < -k) := by omega
  simp only [PovScore.pov, Color.flip, Score.neg, Score.score, mateScoreGR,
    reduceCtorEq, if_false, if_neg hkne, if_neg hnegk, if_pos hk]
  unfold addSeverityNag nagAdd NAG_BLUNDER
  split_ifs <;> simp_all <;> omega

/-- Claim C7 witness: the mate-in-2 scenario of the spec, after an
even position, is tagged a blunder. -/
theorem c7_witness :
    addSeverityNag []
      (((PovScore.mk (.cp 0) .white).pov (Color.flip .black)).score
          mateScoreGR -
        ((PovScore.mk (.mate 2) .black).pov (Color.flip .black)).score
          mateScoreGR) = [NAG_BLUNDER] :=
  c7_mate_conversion_dominates.2.2.2.2 2 (by norm_num) (by norm_num)

/-- Claim C9 counterexample: a mate value of exactly zero does not
fail; sanitize_povscore renders it as the string M0, for Mate(0) and
for MateGiven alike. -/
theorem c9_counterexample :
    sanitize_povscore (Score.mate 0) = "M0" ∧
    sanitize_povscore Score.mateGiven = "M0" := by
  constructor <;> rfl

/-- Claim C9 amended: the code defines no InvalidScore error;
sanitize_povscore is total, and every score whose mate value is zero
is silently rendered as the string M0. -/
theorem c9_amended_mate_zero_renders_M0 (s : Score)
    (h : s.mateVal = some 0) : sanitize_povscore s = "M0" := by
  cases s with
  | cp v => simp [Score.mateVal] at h
  | mate n =>
    simp [Score.mateVal] at h
    subst h
    rfl
  | mateGiven => rfl

/-- Claim C9 witness: the amended statement applied to Mate(0). -/
theorem c9_witness : sanitize_povscore (Score.mate 0) = "M0" :=
  c9_amended_mate_zero_renders_M0 (Score.mate 0) rfl

/-- Claim C8 counterexample: a mate in three is rendered as M3, not as
the plus-or-minus-signed form +M3 the claim describes. -/
theorem c8_counterexample :
    sanitize_povscore (Score.mate 3) = "M3" ∧
    specMateFmt 3 = "+M3" ∧
    sanitize_povscore (Score.mate 3) ≠ specMateFmt 3 := by
  refine ⟨rfl, rfl, by decide⟩

theorem addSeverityNag_lt_100 (nags : List Nat) (d : Int) (h : d < 100) :
    addSeverityNag nags d = nags := by
  unfold addSeverityNag
  split_ifs with h1 h2 h3
  · exact absurd h1 (by omega)
  · exact absurd h2 (by omega)
  · exact absurd h3 (by omega)
  · rfl

theorem addSeverityNag_ne_nil (nags : List Nat) (d : Int) (h : nags ≠ []) :
    addSeverityNag nags d ≠ [] := by
  unfold addSeverityNag nagAdd
  split_ifs <;> simp_all

theorem specNagsGR_ne_nil (ov : String → PovScore) (prev : Option PovScore)
    (i : PosInfo) (h : i.nags ≠ []) : specNagsGR ov prev i ≠ [] := by
  cases prev with
  | none => exact h
  | some p => exact addSeverityNag_ne_nil _ _ h

theorem specInfoGR_comment_of_nags (ov : String → PovScore)
    (prev : Option PovScore) (i : PosInfo)
    (h : (specInfoGR ov prev i).nags ≠ []) :
    (specInfoGR ov prev i).comment = sanitize_povscore (ov i.fen).white := by
  have h2 : ¬(specNagsGR ov prev i = []) := h
  show (if specNagsGR ov prev i = [] then i.comment
    else sanitize_povscore (ov i.fen).white) = _
  rw [if_neg h2]

theorem createReviewGR_ok_spec (ov : String → PovScore) (t t1 : GTree)
    (tr : List EngEvent)
    (h : createReviewGR (okOracle ov) t = (.ok t1, tr)) :
    t1 = specMapGR ov none t := by
  unfold createReviewGR at h
  rcases he : evalInnerGR (okOracle ov) none t ⟨[], []⟩ with ⟨r, s⟩
  rw [he] at h
  cases r with
  | error e => simp at h
  | ok t2 =>
    simp only [Prod.mk.injEq, Except.ok.injEq] at h
    rw [← h.1]
    exact evalInnerGR_ok_spec ov none t ⟨[], []⟩ t2 s he

theorem getPath_nil (t : GTree) : getPath t [] = some t := by
  cases t
  rfl

theorem forestGet_spec (ov : String → PovScore) (score : PovScore) :
    ∀ (cs : GForest) (k : Nat) (c : GTree),
      forestGet cs k = some c →
      forestGet (specForestGR ov score cs) k =
        some (specMapGR ov (some score) c)
  | .nil, k, c, h => by simp [forestGet] at h
  | .cons t ts, 0, c, h => by
    simp only [forestGet, Option.some.injEq] at h
    subst h
    rfl
  | .cons t ts, k + 1, c, h =>
    forestGet_spec ov score ts k c h

theorem getPath_spec (ov : String → PovScore) :
    ∀ (p : List Nat) (t : GTree) (prev : Option PovScore) (u : GTree),
      getPath t p = some u →
      ∃ prev2, getPath (specMapGR ov prev t) p = some (specMapGR ov prev2 u)
  | [], t, prev, u, h => by
    rw [getPath_nil] at h
    simp only [Option.some.injEq] at h
    subst h
    exact ⟨prev, getPath_nil _⟩
  | k :: p, .node j ds, prev, u, h => by
    simp only [getPath] at h
    rcases hf : forestGet ds k with _ | c
    · rw [hf] at h
      simp at h
    · rw [hf] at h
      simp only at h
      obtain ⟨prev2, h2⟩ := getPath_spec ov p c (some (ov j.fen)) u h
      refine ⟨prev2, ?_⟩
      have hstep : specMapGR ov prev (.node j ds) =
          .node (specInfoGR ov prev j) (specForestGR ov (ov j.fen) ds) := rfl
      rw [hstep]
      simp only [getPath]
      rw [forestGet_spec ov (ov j.fen) ds k c hf]
      simpa using h2

mutual
theorem specMapGR_id (ov : String → PovScore) :
    ∀ (prev : Option PovScore) (t : GTree),
      noNags t = true → deficitsLtGR ov 100 prev t = true →
      specMapGR ov prev t = t
  | prev, .node i cs, hn, hd => by
    simp only [noNags, Bool.and_eq_true] at hn
    simp only [deficitsLtGR, Bool.and_eq_true] at hd
    have hnil : i.nags = [] := by
      have h1 := hn.1
      rwa [List.isEmpty_iff] at h1
    have hf := specForestGR_id ov (ov i.fen) cs hn.2 hd.2
    have hnags : specNagsGR ov prev i = i.nags := by
      cases prev with
      | none => rfl
      | some p =>
        have hdp : (p.pov i.turn.flip).score mateScoreGR -
            ((ov i.fen).pov i.turn.flip).score mateScoreGR < 100 :=
          of_decide_eq_true hd.1
        exact addSeverityNag_lt_100 _ _ hdp
    show GTree.node (specInfoGR ov prev i) (specForestGR ov (ov i.fen) cs) =
      .node i cs
    rw [hf]
    have hinfo : specInfoGR ov prev i = i := by
      obtain ⟨fen, turn, comment, nags⟩ := i
      have hnil2 : nags = [] := hnil
      subst hnil2
      have hnags2 : specNagsGR ov prev ⟨fen, turn, comment, []⟩ = [] := hnags
      unfold specInfoGR
      rw [hnags2]
      rfl
    rw [hinfo]

theorem specForestGR_id (ov : String → PovScore) :
    ∀ (score : PovScore) (cs : GForest),
      noNagsF cs = true → deficitsLtGRF ov 100 score cs = true →
      specForestGR ov score cs = cs
  | _, .nil, _, _ => rfl
  | score, .cons t ts, hn, hd => by
    simp only [noNagsF, Bool.and_eq_true] at hn
    simp only [deficitsLtGRF, Bool.and_eq_true] at hd
    show GForest.cons (specMapGR ov (some score) t) (specForestGR ov score ts) =
      .cons t ts
    rw [specMapGR_id ov (some score) t hn.1 hd.1,
      specForestGR_id ov score ts hn.2 hd.2]
end

/-- Claim C4: in a successful GameReviewer run the output tree is the
closed-form specMapGR of the input, in which every non-root node is
classified by the deficit previousScore minus currentScore, both
scores first projected to the point of view of the side that just
moved, the inverse of the side to move in the position of the node (second
conjunct, definitional identity of specNagsGR). -/
theorem c4_pov_adjusted_deficit :
    (∀ (ov : String → PovScore) (t t1 : GTree) (tr : List EngEvent),
      createReviewGR (okOracle ov) t = (.ok t1, tr) →
      t1 = specMapGR ov none t) ∧
    ∀ (ov : String → PovScore) (p : PovScore) (i : PosInfo),
      specNagsGR ov (some p) i =
        addSeverityNag i.nags
          ((p.pov i.turn.flip).score mateScoreGR -
           ((ov i.fen).pov i.turn.flip).score mateScoreGR) :=
  ⟨fun ov t t1 tr h => createReviewGR_ok_spec ov t t1 tr h,
   fun _ _ _ => rfl⟩

/-- Claim C4 witness: a successful run on the two-node mainline under
the blunder oracle, with the correspondence instantiated there. -/
theorem c4_witness :
    ∃ (t1 : GTree) (tr : List EngEvent),
      createReviewGR (okOracle ovBlunder) tClean = (.ok t1, tr) ∧
      t1 = specMapGR ovBlunder none tClean :=
  ⟨_, _, rfl, c4_pov_adjusted_deficit.1 ovBlunder tClean _ _ rfl⟩

/-- Claim C6 counterexample: on a tree with no NAGs and every deficit
zero, the main.py review variant cited by the claim still writes a
comment on every node, so the run does not add zero comments. -/
theorem c6_counterexample :
    noNags tClean = true ∧
    deficitsLtGM ovEven 100 none tClean = true ∧
    ∃ t1 tr, createReviewGM (okOracle ovEven) tClean = (.ok t1, tr) ∧
      t1.info.comment = "+0.00" ∧ t1 ≠ tClean :=
  ⟨rfl, by decide, _, _, rfl, rfl, by decide⟩

/-- Claim C6 amended: restricted to the GameReviewer variant and to
input trees carrying no pre-existing NAG, a run in which every deficit
stays below 100 returns the tree unchanged: zero comments and zero
tags added. -/
theorem c6_amended_no_deficit_no_mutation :
    ∀ (ov : String → PovScore) (t t1 : GTree) (tr : List EngEvent),
      createReviewGR (okOracle ov) t = (.ok t1, tr) →
      noNags t = true →
      deficitsLtGR ov 100 none t = true →
      t1 = t := by
  intro ov t t1 tr h hn hd
  rw [createReviewGR_ok_spec ov t t1 tr h]
  exact specMapGR_id ov none t hn hd

/-- Claim C6 witness: the amended statement instantiated on the clean
two-node mainline with a 50 centipawn deficit. -/
theorem c6_witness :
    ∃ t1 tr, createReviewGR (okOracle ovFifty) tClean = (.ok t1, tr) ∧
      t1 = tClean :=
  ⟨_, _, rfl,
   c6_amended_no_deficit_no_mutation ovFifty tClean _ _ rfl rfl rfl⟩

/-- Claim C8 amended: every node that receives a comment (that is,
whose final NAG set is nonempty) gets the sanitize_povscore rendering
of its evaluation projected to the white point of view, regardless of
the side that moved; centipawn scores render with a sign and two
decimals, while mate scores render as M followed by the signed mate
count rather than the sign-first form of the original claim. -/
theorem c8_amended_comment_format :
    (∀ (ov : String → PovScore) (t t1 : GTree) (tr : List EngEvent)
      (p : List Nat) (i : PosInfo) (cs : GForest),
      createReviewGR (okOracle ov) t = (.ok t1, tr) →
      getPath t p = some (.node i cs) →
      ∃ i2 cs2, getPath t1 p = some (.node i2 cs2) ∧
        (i2.nags ≠ [] →
          i2.comment = sanitize_povscore (ov i.fen).white)) ∧
    sanitize_povscore (Score.cp 125) = "+1.25" ∧
    sanitize_povscore (Score.cp (-30)) = "-0.30" ∧
    ∀ n : Int, sanitize_povscore (Score.mate n) = "M" ++ toString n := by
  refine ⟨?_, rfl, rfl, fun n => rfl⟩
  intro ov t t1 tr p i cs h hp
  rw [createReviewGR_ok_spec ov t t1 tr h]
  obtain ⟨prev2, h2⟩ := getPath_spec ov p t none (.node i cs) hp
  have hstep : specMapGR ov prev2 (.node i cs) =
      .node (specInfoGR ov prev2 i) (specForestGR ov (ov i.fen) cs) := rfl
  rw [hstep] at h2
  exact ⟨specInfoGR ov prev2 i, _, h2,
    fun hne => specInfoGR_comment_of_nags ov prev2 i hne⟩

/-- Claim C8 witness: the comment characterisation instantiated on the
blunder run, at the tagged move node. -/
theorem c8_witness :
    ∃ i2 cs2,
      getPath
        (GTree.node ⟨fenStart, .white, "", []⟩
          (.cons (.node ⟨fenE4, .black, "-6.00", [NAG_BLUNDER]⟩ .nil) .nil))
        [0] = some (.node i2 cs2) ∧
      (i2.nags ≠ [] →
        i2.comment = sanitize_povscore (ovBlunder fenE4).white) :=
  c8_amended_comment_format.1 ovBlunder tClean
    (GTree.node ⟨fenStart, .white, "", []⟩
      (.cons (.node ⟨fenE4, .black, "-6.00", [NAG_BLUNDER]⟩ .nil) .nil))
    [.analyse fenStart, .analyse fenE4, .quit]
    [0] ⟨fenE4, .black, "", []⟩ .nil rfl rfl

/-- Claim C10: a node whose input tree already carries any NAG has its
comment set to the formatted score of the current run even when the
run adds no new severity tag, because the comment condition tests the
whole NAG set of the node. -/
theorem c10_preexisting_nag_forces_comment :
    ∀ (ov : String → PovScore) (t t1 : GTree) (tr : List EngEvent)
      (p : List Nat) (i : PosInfo) (cs : GForest),
      createReviewGR (okOracle ov) t = (.ok t1, tr) →
      getPath t p = some (.node i cs) →
      i.nags ≠ [] →
      ∃ i2 cs2, getPath t1 p = some (.node i2 cs2) ∧
        i2.comment = sanitize_povscore (ov i.fen).white ∧
        i2.nags ≠ [] := by
  intro ov t t1 tr p i cs h hp hn
  rw [createReviewGR_ok_spec ov t t1 tr h]
  obtain ⟨prev2, h2⟩ := getPath_spec ov p t none (.node i cs) hp
  have hstep : specMapGR ov prev2 (.node i cs) =
      .node (specInfoGR ov prev2 i) (specForestGR ov (ov i.fen) cs) := rfl
  rw [hstep] at h2
  exact ⟨specInfoGR ov prev2 i, _, h2,
    specInfoGR_comment_of_nags ov prev2 i (specNagsGR_ne_nil ov prev2 i hn),
    specNagsGR_ne_nil ov prev2 i hn⟩

/-- Claim C10 witness: the run on the marked tree (one pre-existing
good-move NAG, zero deficit) writes the formatted even score to the
marked node although no new tag is produced. -/
theorem c10_witness :
    ∃ i2 cs2,
      getPath
        (GTree.node ⟨fenStart, .white, "", []⟩
          (.cons (.node ⟨fenE4, .black, "+0.00", [1]⟩ .nil) .nil))
        [0] = some (.node i2 cs2) ∧
      i2.comment = sanitize_povscore (ovEven fenE4).white ∧
      i2.nags ≠ [] :=
  c10_preexisting_nag_forces_comment ovEven tMarked
    (GTree.node ⟨fenStart, .white, "", []⟩
      (.cons (.node ⟨fenE4, .black, "+0.00", [1]⟩ .nil) .nil))
    [.analyse fenStart, .analyse fenE4, .quit]
    [0] ⟨fenE4, .black, "", [1]⟩ .nil rfl rfl (by decide)

/-- Claim C3: on the transposition game 1. e4 d5 2. d4 against
1. d4 d5 2. e4, whose two leaves share one position key, the cached
walker calls the engine only once for that key but the second
occurrence aborts the whole run with the reused-coroutine RuntimeError
instead of serving the cached evaluation; the engine is still quit
exactly once. -/
theorem c3_bug_repeated_key_aborts :
    (createReviewGR (okOracle ovEven) tTrans).1 = .error .reusedCoroutine ∧
    (createReviewGR (okOracle ovEven) tTrans).2 =
      [.analyse fenStart, .analyse fenE4, .analyse fenE4d5,
       .analyse fenTrans, .analyse fenD4, .analyse fenD4d5, .quit] :=
  ⟨rfl, rfl⟩

/-- Claim C5 counterexample: the empty move sequence and the knight
dance Ng1f3 Ng8f6 Nf3g1 Nf6g8 reach the same board position (same
placement, side to move, castling rights and en-passant target), yet
board.fen(), the string _eval_fen uses as cache key, differs between
them because it also contains the halfmove clock and the fullmove
number (0 1 against 4 3). -/
theorem c5_counterexample :
    samePosition startBoard (applyMoves startBoard knightDance) ∧
    Board.fen startBoard = fenStart ∧
    Board.fen (applyMoves startBoard knightDance) =
      "rnbqkbnr/pppppppp/8/8/8/8/PPPPPPPP/RNBQKBNR w KQkq - 4 3" ∧
    Board.fen startBoard ≠ Board.fen (applyMoves startBoard knightDance) :=
  ⟨by decide, rfl, rfl, by decide⟩

/-- Claim C5 amended: the position key is the full FEN, so two move
sequences reaching the same board position share one cache key exactly
when they also agree on the halfmove clock and the fullmove number;
transpositions that differ in either counter receive distinct keys
(the counterexample exhibits one). -/
theorem c5_amended_key_needs_equal_counters (b1 b2 : Board)
    (hp : samePosition b1 b2)
    (hc : b1.halfmoveClock = b2.halfmoveClock)
    (hm : b1.fullmoveNumber = b2.fullmoveNumber) :
    Board.fen b1 = Board.fen b2 := by
  obtain ⟨h1, h2, h3, h4⟩ := hp
  unfold Board.fen
  rw [h1, h2, h3, h4, hc, hm]

/-- Claim C5 witness: the amended statement on the genuine
transposition Ng1f3 Nb8c6 Nb1c3 Ng8f6 against Nb1c3 Ng8f6 Ng1f3 Nb8c6,
same position and same counters, giving one shared key. -/
theorem c5_witness :
    samePosition (applyMoves startBoard knightsSeqA)
      (applyMoves startBoard knightsSeqB) ∧
    Board.fen (applyMoves startBoard knightsSeqA) =
      Board.fen (applyMoves startBoard knightsSeqB) :=
  ⟨by decide,
   c5_amended_key_needs_equal_counters
     (applyMoves startBoard knightsSeqA)
     (applyMoves startBoard knightsSeqB)
     (by decide) (by decide) (by decide)⟩

end Chesseval
